import Mathlib

/-!
Verification of the FCE-Trainer task-supply, repetition-avoidance, and
grading core against its natural-language specification.

The Python source is embedded shallowly:
* `app/utils.py` — text normalization (`norm`), fuzzy answer matching
  (`answers_match`, backed by `difflib.SequenceMatcher.ratio`).
* `app/db.py` — the show log, the exclusion-window picker
  (`get_excluded_ids`, `pick_one_task_id`, `pick_task_id_for_part`) and the
  get-or-create orchestrator (`generic_get_or_create`).
* `app/parts/part1.py`, `part3.py`, `part4.py` — generation-time validators
  and the grading functions `check_part1`, `check_part4`.
* `app/views/use_of_english.py` — the bounded single-use check-result cache.

Database tables are modelled as Lean lists in insertion (ascending-id)
order; `ORDER BY RANDOM() LIMIT 1` is modelled by an explicit choice
oracle constrained to return an element of the candidate row list.
All text is treated at ASCII fidelity (`Char.toLower`, ASCII whitespace),
which covers the repository's data; `SequenceMatcher` is modelled without
autojunk, which is exact for the second argument shorter than 200
characters, and the float comparison `ratio() >= 0.88` is modelled by the
exact integer inequality `200 * matched >= 88 * (len a + len b)`, which
agrees with the double-precision comparison for all realistic lengths.
-/

namespace FCE

/-! ### `app/utils.py`: normalization and fuzzy matching -/

/-- The character class of Python's regex `\s` (ASCII part): space, tab,
newline, carriage return, vertical tab, form feed. -/
def isSpaceChar (c : Char) : Bool :=
  c = ' ' || c = '\t' || c = '\n' || c = '\r' || c = '\x0b' || c = '\x0c'

/-- Python `str.strip()`: drop leading and trailing whitespace. -/
def stripChars (l : List Char) : List Char :=
  ((l.dropWhile isSpaceChar).reverse.dropWhile isSpaceChar).reverse

/-- Python `re.sub(r"\s+", " ", s)`: every maximal run of whitespace
becomes a single space. -/
def collapseWs : List Char → List Char
  | [] => []
  | [c] => [if isSpaceChar c then ' ' else c]
  | c1 :: c2 :: rest =>
    if isSpaceChar c1 && isSpaceChar c2 then collapseWs (c2 :: rest)
    else (if isSpaceChar c1 then ' ' else c1) :: collapseWs (c2 :: rest)

/-- Python `str.strip()` lifted to `String`. -/
def pyStrip (s : String) : String := String.mk (stripChars s.toList)

/-- Python `str.upper()` / `str.lower()` at ASCII fidelity, defined
character-wise so they reduce in the kernel. -/
def pyToUpper (s : String) : String := String.mk (s.toList.map Char.toUpper)

def pyToLower (s : String) : String := String.mk (s.toList.map Char.toLower)

/-- `app/utils.py` `norm`: `re.sub(r"\s+", " ", (s or "").strip().lower())`. -/
def norm (s : String) : String :=
  String.mk (collapseWs ((stripChars s.toList).map Char.toLower))

/-- Length of the common prefix of two character lists. -/
def cpl : List Char → List Char → Nat
  | x :: xs, y :: ys => if x = y then cpl xs ys + 1 else 0
  | _, _ => 0

/-- `difflib.SequenceMatcher.find_longest_match` over whole sequences
(no junk): the longest block `a[i:i+k] = b[j:j+k]`, ties resolved to the
lexicographically least `(i, j)`, returned as `(i, j, k)`. -/
def flm (a b : List Char) : Nat × Nat × Nat :=
  ((List.range a.length).flatMap fun i =>
      (List.range b.length).map fun j => (i, j, cpl (a.drop i) (b.drop j))).foldl
    (fun best c => if c.2.2 > best.2.2 then c else best) (0, 0, 0)

/-- Total characters matched by the Ratcliff–Obershelp recursion
(`difflib.SequenceMatcher.get_matching_blocks`): take the longest match,
recurse on the pieces to its left and to its right. Structured with a
fuel argument so it reduces in the kernel; the recursion depth is bounded
by `a.length` (each recursive call strictly shrinks `a`), so
`fuel = a.length` in `roMatch` is always sufficient: the fuel-0 case is
only reached with `a = []`, where the longest match is empty anyway. -/
def roMatchF : Nat → List Char → List Char → Nat
  | 0, _, _ => 0
  | fuel + 1, a, b =>
    let t := flm a b
    if t.2.2 = 0 then 0
    else
      roMatchF fuel (a.take t.1) (b.take t.2.1) + t.2.2 +
        roMatchF fuel (a.drop (t.1 + t.2.2)) (b.drop (t.2.1 + t.2.2))

def roMatch (a b : List Char) : Nat := roMatchF a.length a b

/-- `difflib.SequenceMatcher(None, a, b).ratio() >= 0.88`, expressed
exactly over the rationals: `2 * M / (|a| + |b|) ≥ 88/100`. -/
def ratioGe88 (a b : String) : Bool :=
  200 * roMatch a.toList b.toList ≥ 88 * (a.toList.length + b.toList.length)

/-- `app/utils.py` `answers_match`: normalized equality, else `False` on a
blank side, else fuzzy ratio at least `0.88`. -/
def answers_match (user_val expected : String) : Bool :=
  let a := norm user_val
  let b := norm expected
  if a = b then true
  else if a.toList.isEmpty || b.toList.isEmpty then false
  else ratioGe88 a b

/-- Maximal non-whitespace runs seen so far; the flag says whether the
scan is inside a word. -/
def countWordsAux : List Char → Bool → Nat
  | [], _ => 0
  | c :: rest, inWord =>
    if isSpaceChar c then countWordsAux rest false
    else (if inWord then 0 else 1) + countWordsAux rest true

/-- `app/utils.py` `word_count`: `len((s or "").split())`. Python
`str.split()` with no separator counts maximal non-whitespace runs. -/
def word_count (s : String) : Nat := countWordsAux s.toList false

/-! ### `app/db.py`: show log, exclusion window, picker, orchestrator

A per-part store is a pair of tables. `tasks` holds the task-row ids in
insertion order (SQLite `AUTOINCREMENT`, so ascending id order: the newest
row, `ORDER BY id DESC LIMIT 1`, is the last element). `shows` holds the
`task_id` column of the show-log rows in insertion order (ascending show
id), so the most recent show event is the last element. -/

structure PartStore where
  tasks : List Nat
  shows : List Nat
deriving Repr, DecidableEq

/-- `app/config.py`: `LAST_N_SHOWS = 100`. -/
def LAST_N_SHOWS : Nat := 100

/-- `app/config.py`: `CHECK_RESULT_CACHE_MAX = 20`. -/
def CHECK_RESULT_CACHE_MAX : Nat := 20

/-- First occurrences of each value, in scan order, skipping values seen
already: SQLite `SELECT DISTINCT` over a scan in the given order keeps
the first occurrence of each value. -/
def distinctFirstAux : List Nat → List Nat → List Nat
  | [], _ => []
  | x :: xs, seen =>
    if x ∈ seen then distinctFirstAux xs seen
    else x :: distinctFirstAux xs (x :: seen)

def distinctFirst (l : List Nat) : List Nat := distinctFirstAux l []

/-- `app/db.py` `_get_excluded_ids`:
`SELECT DISTINCT task_id FROM shows ORDER BY id DESC LIMIT LAST_N_SHOWS` —
the most-recent-first scan of the show log, deduplicated keeping the most
recent occurrence, truncated to the first 100 distinct ids (verified
SQLite behaviour: DISTINCT applies before LIMIT). -/
def get_excluded_ids (shows : List Nat) : List Nat :=
  (distinctFirst shows.reverse).take LAST_N_SHOWS

/-- The `exclude_current` handling of `_pick_one_task_id`: append the
current id unless it is already excluded. -/
def excludedWith (excluded : List Nat) (exclude_current : Option Nat) : List Nat :=
  match exclude_current with
  | some c => if c ∈ excluded then excluded else excluded ++ [c]
  | none => excluded

/-- `app/db.py` `_pick_one_task_id`. `choose` is the oracle standing for
`ORDER BY RANDOM() LIMIT 1` over the eligible row list; the branch on an
empty exclusion list in the source produces the same candidate row set as
the filter, so both branches are one filter here. -/
def pick_one_task_id (choose : List Nat → Option Nat)
    (tasks shows : List Nat) (exclude_current : Option Nat) : Option Nat :=
  let excluded := excludedWith (get_excluded_ids shows) exclude_current
  choose (tasks.filter (fun i => i ∉ excluded))

/-- Soundness of a `RANDOM() LIMIT 1` oracle: any returned row belongs to
the candidate row set. -/
def ChoiceSound (choose : List Nat → Option Nat) : Prop :=
  ∀ l x, choose l = some x → x ∈ l

/-- `app/db.py` `_record_show`: append one show-log row for `task_id`. -/
def record_show (s : PartStore) (task_id : Nat) : PartStore :=
  { s with shows := s.shows ++ [task_id] }

/-- The parts registered in `_PART_DB_SCHEMA` (keys 1, 3, 2, 5, 6, 7). -/
def partHasSchema (part : Nat) : Bool :=
  part = 1 || part = 3 || part = 2 || part = 5 || part = 6 || part = 7

/-- `app/db.py` `get_task_by_id_for_part` restricted to one part's store:
`None` when the id is falsy (`not task_id`, i.e. 0) or no row has that id;
otherwise the parsed row, represented by its id. -/
def get_task_by_id (s : PartStore) (task_id : Nat) : Option Nat :=
  if task_id = 0 then none
  else if task_id ∈ s.tasks then some task_id else none

/-- `app/db.py` `pick_task_id_for_part`: schema dispatch then
`_pick_one_task_id` on that part's tables. -/
def pick_task_id_for_part (choose : List Nat → Option Nat)
    (db : Nat → PartStore) (part : Nat) (exclude_current : Option Nat) : Option Nat :=
  if partHasSchema part then
    pick_one_task_id choose (db part).tasks (db part).shows exclude_current
  else none

/-- The unconstrained-random fallback inside `_generic_get_or_create`
(`SELECT id ... [WHERE id != exclude] ORDER BY RANDOM() LIMIT 1`) followed
by the shared record-show-and-return tail of the function. -/
def genericFallback (choose : List Nat → Option Nat)
    (exclude_task_id : Option Nat) (s : PartStore) :
    (Option Nat × Option Nat) × PartStore :=
  let task_id := choose (match exclude_task_id with
    | some ex => s.tasks.filter (fun i => i ≠ ex)
    | none => s.tasks)
  match task_id with
  | none => ((none, none), s)
  | some tid => ((get_task_by_id s tid, some tid), record_show s tid)

/-- `app/db.py` `_generic_get_or_create`. `generate_fn` is the per-part
generator (absent to model passing `None`), a state transformer that may
insert task rows and returns the generated item (opaque, represented by a
`Nat`) or `none`. Returns `((item, task_id), store)`. -/
def generic_get_or_create (choose : List Nat → Option Nat) (part : Nat)
    (generate_fn : Option (PartStore → Option Nat × PartStore))
    (exclude_task_id : Option Nat) (openai_available : Bool)
    (s : PartStore) : (Option Nat × Option Nat) × PartStore :=
  if partHasSchema part = true then
    match pick_one_task_id choose s.tasks s.shows exclude_task_id with
    | some tid => ((get_task_by_id s tid, some tid), record_show s tid)
    | none =>
      if openai_available then
        match generate_fn with
        | some gen =>
          match gen s with
          | (some item, s1) =>
            match s1.tasks.getLast? with
            | some rid => ((some item, some rid), record_show s1 rid)
            | none => ((some item, none), s1)
          | (none, s1) => genericFallback choose exclude_task_id s1
        | none => genericFallback choose exclude_task_id s
      else genericFallback choose exclude_task_id s
  else ((none, none), s)

/-! ### `app/parts/part1.py`: multiple-choice cloze grading (C8) -/

/-- Digit run validity for Python `int(str)`: non-empty ASCII digits with
single underscores allowed only between digits. -/
def noDoubleUnderscore : List Char → Bool
  | c1 :: c2 :: rest => !(c1 = '_' && c2 = '_') && noDoubleUnderscore (c2 :: rest)
  | _ => true

def validDigitRun (l : List Char) : Bool :=
  !l.isEmpty && l.all (fun c => c.isDigit || c = '_') &&
    (match l.head? with | some c => c.isDigit | none => false) &&
    (match l.getLast? with | some c => c.isDigit | none => false) &&
    noDoubleUnderscore l

def digitsValue (l : List Char) : Nat :=
  (l.filter (fun c => c ≠ '_')).foldl (fun acc c => acc * 10 + (c.toNat - '0'.toNat)) 0

/-- Python `int(s)` on a string: strip whitespace, optional sign, ASCII
decimal digits (underscore group separators allowed between digits);
`none` models `ValueError`. Restricted to ASCII digits, which covers the
form values of this application. -/
def pyParseIntStr (s : String) : Option Int :=
  match stripChars s.toList with
  | '+' :: rest => if validDigitRun rest then some (digitsValue rest : Int) else none
  | '-' :: rest => if validDigitRun rest then some (-(digitsValue rest : Int)) else none
  | rest => if validDigitRun rest then some (digitsValue rest : Int) else none

/-- `int(user_val)` where `user_val` is `form.get(...)`: a missing value
(`None`) raises `TypeError`, modelled as `none`. -/
def pyParseInt : Option String → Option Int
  | none => none
  | some s => pyParseIntStr s

/-- One stored Part 1 gap: four options and the correct index. -/
structure Gap where
  options : List String
  correct : Nat
deriving Repr, DecidableEq

structure P1Detail where
  correct : Bool
  user_val : Int
  expected : String
deriving Repr, DecidableEq

structure CheckResult1 where
  part : Nat
  score : Nat
  total : Nat
  details : List P1Detail
deriving Repr, DecidableEq

/-- `app/parts/part1.py` `check_part1`, with the task's gaps resolved: for
each of the 8 gaps, parse the submission (`-1` on `TypeError`/`ValueError`),
compare to the stored correct index, count correct ones. Out-of-range
indexing (`gaps[i]`, `options[correct]`) is total here via defaults; the
grading theorems assume the stored structural contract of 8 gaps. -/
def p1DetailAt (gaps : List Gap) (form : Nat → Option String) (i : Nat) : P1Detail where
  correct := decide ((pyParseInt (form i)).getD (-1) = ((gaps.getD i ⟨[], 0⟩).correct : Int))
  user_val := (pyParseInt (form i)).getD (-1)
  expected := (gaps.getD i ⟨[], 0⟩).options.getD (gaps.getD i ⟨[], 0⟩).correct ""

def check_part1 (gaps : List Gap) (form : Nat → Option String) : Option CheckResult1 :=
  if gaps.isEmpty then none
  else
    some ⟨1, ((List.range 8).map (p1DetailAt gaps form)).countP (·.correct), 8,
      (List.range 8).map (p1DetailAt gaps form)⟩

/-- The spec's scenario-C gaps: correct indices 1, 2, 0 then five 0s. -/
def c8gaps : List Gap :=
  [⟨["a", "b", "c", "d"], 1⟩, ⟨["a", "b", "c", "d"], 2⟩, ⟨["a", "b", "c", "d"], 0⟩,
   ⟨["a", "b", "c", "d"], 0⟩, ⟨["a", "b", "c", "d"], 0⟩, ⟨["a", "b", "c", "d"], 0⟩,
   ⟨["a", "b", "c", "d"], 0⟩, ⟨["a", "b", "c", "d"], 0⟩]

/-- The spec's scenario-C submission: gap 0 answered 1 (correct), gap 1
unanswered, gap 2 answered 0 (correct), the rest unanswered. -/
def c8form : Nat → Option String := fun i =>
  if i = 0 then some "1" else if i = 2 then some "0" else none

/-! ### `app/parts/part4.py` `check_part4`: attempted-only scoring (C7) -/

/-- One resolved sentence-transformation task as the checker sees it:
`answer` is `none` when the dict has no `"answer"` key (the code then
grades against `""`). -/
structure P4Task where
  answer : Option String
deriving Repr, DecidableEq

structure P4Detail where
  correct : Bool
  user_val : String
  expected : String
deriving Repr, DecidableEq

structure CheckResult4 where
  part : Nat
  score : Nat
  total : Nat
  details : List P4Detail
deriving Repr, DecidableEq

/-- The grading loop of `check_part4` over `tasks[i]` for
`i in range(len(tasks))`: a `none` entry models a non-dict element
(skipped entirely); otherwise the stripped submission is compared to the
stored answer, and only a non-blank submission increments the attempted
total (and, when it matches, the score). -/
def check_part4_loop : List (Option P4Task) → (Nat → Option String) → Nat →
    Nat × Nat × List P4Detail
  | [], _, _ => (0, 0, [])
  | t? :: rest, form, i =>
    let r := check_part4_loop rest form (i + 1)
    match t? with
    | none => r
    | some t =>
      let user_val := pyStrip ((form i).getD "")
      let expected := t.answer.getD ""
      let correct := answers_match user_val expected
      ((if user_val ≠ "" && correct then 1 else 0) + r.1,
        (if user_val ≠ "" then 1 else 0) + r.2.1,
        ⟨correct, user_val, expected⟩ :: r.2.2)

/-- `app/parts/part4.py` `check_part4` with the session's task list
resolved: `None` on an empty list, otherwise `{part: 4, score, total,
details}` where `total` counts attempted items only. (The best-effort
explanation enrichment that follows in the source only annotates
`details` with text and never changes `score`/`total`/`correct`.) -/
def check_part4 (tasks : List (Option P4Task)) (form : Nat → Option String) :
    Option CheckResult4 :=
  if tasks.isEmpty then none
  else
    some ⟨4, (check_part4_loop tasks form 0).1, (check_part4_loop tasks form 0).2.1,
      (check_part4_loop tasks form 0).2.2⟩

/-- Attempted: the indexed entry is a real task dict and the stripped
submission is non-blank. -/
def p4AttemptedPair (form : Nat → Option String) (p : Nat × Option P4Task) : Bool :=
  match p.2 with
  | some _ => pyStrip ((form p.1).getD "") ≠ ""
  | none => false

/-- Attempted and matching the stored key. -/
def p4ScoredPair (form : Nat → Option String) (p : Nat × Option P4Task) : Bool :=
  match p.2 with
  | some t => pyStrip ((form p.1).getD "") ≠ "" &&
      answers_match (pyStrip ((form p.1).getD "")) (t.answer.getD "")
  | none => false

/-! ### `app/views/use_of_english.py`: bounded single-use result cache (C9)

`_CHECK_RESULT_CACHE` is a module-level Python dict, modelled as an
association list in insertion order with unique keys (dict semantics);
`next(iter(d))` is the head (oldest-inserted key). -/

def dictMember {V : Type} (c : List (String × V)) (k : String) : Bool :=
  c.any (fun p => p.1 = k)

/-- Python `d[k] = v`: overwrite in place if present, else append. -/
def dictSet {V : Type} (c : List (String × V)) (k : String) (v : V) :
    List (String × V) :=
  if dictMember c k then c.map (fun p => if p.1 = k then (k, v) else p)
  else c ++ [(k, v)]

/-- `_handle_check_action`: when the cache already holds
`CHECK_RESULT_CACHE_MAX` entries, pop the oldest-inserted entry
(`pop(next(iter(cache)))`), then store the result under the fresh token. -/
def cacheInsert {V : Type} (c : List (String × V)) (k : String) (v : V) :
    List (String × V) :=
  dictSet (if c.length ≥ CHECK_RESULT_CACHE_MAX then c.drop 1 else c) k v

/-- The read in `use_of_english`: `if token in cache: cache.pop(token)` —
return the stored value (if any) and remove its entry. -/
def cacheTake {V : Type} (c : List (String × V)) (k : String) :
    Option V × List (String × V) :=
  match c.find? (fun p => p.1 = k) with
  | some p => (some p.2, c.filter (fun q => ¬(q.1 = k)))
  | none => (none, c)

/-! ### `app/parts/part3.py`: word-formation generation (C5) -/

/-- Substring containment, Python `pat in text`. -/
def containsSub (hay pat : String) : Bool :=
  (List.range (hay.toList.length + 1)).any (fun k => pat.toList.isPrefixOf (hay.toList.drop k))

/-- A provider response for Part 3 after JSON extraction: the `text`,
`stems` and `answers` fields. An attempt whose response has no JSON
object, fails to parse, or raises is modelled as `none`. -/
structure P3Candidate where
  text : String
  stems : List String
  answers : List String
deriving Repr, DecidableEq

/-- The persisted Part 3 payload (`items_json`). -/
structure P3Payload where
  text : String
  stems : List String
  answers : List String
deriving Repr, DecidableEq

/-- `unchanged_count`: how many of the 8 answers equal their stem after
the stored normalization (stems upper-cased, answers stripped). -/
def p3UnchangedCount (stems answers : List String) : Nat :=
  (List.range 8).countP (fun i => pyToUpper (answers.getD i "") = stems.getD i "")

/-- The validation applied to one parsed candidate in
`generate_part3_with_openai`: non-empty text, exactly 8 stems and
answers, all 8 gap markers present in order, and at most
`max_unchanged = 1` answers identical to their stem; on success the
normalized payload that is inserted and returned. -/
def p3Validate (c : P3Candidate) : Option P3Payload :=
  if pyStrip c.text = "" then none
  else if c.stems.length ≠ 8 then none
  else if c.answers.length ≠ 8 then none
  else if ¬((List.range 8).all (fun i =>
      containsSub (pyStrip c.text) ("(" ++ toString (i + 1) ++ ")_____"))) then none
  else if p3UnchangedCount (c.stems.map (fun s => pyToUpper (pyStrip s)))
      (c.answers.map pyStrip) > 1 then none
  else some ⟨pyStrip c.text, c.stems.map (fun s => pyToUpper (pyStrip s)),
    c.answers.map pyStrip⟩

/-- The `for attempt in range(3)` loop: each failed or rejected candidate
consumes one attempt; an accepted candidate is inserted into the
`part3_tasks` store and returned. -/
def p3Attempts : List (Option P3Candidate) → List P3Payload →
    Option P3Payload × List P3Payload
  | [], store => (none, store)
  | r :: rest, store =>
    match r with
    | none => p3Attempts rest store
    | some c =>
      match p3Validate c with
      | none => p3Attempts rest store
      | some payload => (some payload, store ++ [payload])

/-- `app/parts/part3.py` `generate_part3_with_openai`: short-circuit when
the provider is unconfigured, otherwise at most 3 attempts. `responses`
lists the successive provider outcomes. -/
def generate_part3_with_openai (clientConfigured : Bool)
    (responses : List (Option P3Candidate)) (store : List P3Payload) :
    Option P3Payload × List P3Payload :=
  if ¬clientConfigured then (none, store)
  else p3Attempts (responses.take 3) store

/-- A candidate whose 8 answers all equal their stems (rejected). -/
def c5bad : P3Candidate :=
  ⟨"T (1)_____ COMPLETE (2)_____ SUSPECT (3)_____ DANGER (4)_____ ACT " ++
    "(5)_____ CARE (6)_____ HOPE (7)_____ POWER (8)_____ SAD end",
  ["COMPLETE", "SUSPECT", "DANGER", "ACT", "CARE", "HOPE", "POWER", "SAD"],
  ["complete", "suspect", "danger", "act", "care", "hope", "power", "sad"]⟩

/-- A candidate with exactly one unchanged answer (accepted). -/
def c5good : P3Candidate :=
  ⟨"T (1)_____ COMPLETE (2)_____ SUSPECT (3)_____ DANGER (4)_____ ACT " ++
    "(5)_____ CARE (6)_____ HOPE (7)_____ POWER (8)_____ SAD end",
  ["COMPLETE", "SUSPECT", "DANGER", "ACT", "CARE", "HOPE", "POWER", "SAD"],
  ["completion", "suspicious", "danger", "action", "careful", "hopeless",
    "powerful", "sadness"]⟩

/-! ### `app/parts/part4.py`: sentence-transformation generation (C6) -/

/-- Python's regex `\w` (ASCII part): letters, digits, underscore. -/
def isWordChar (c : Char) : Bool := c.isAlphanum || c = '_'

def wordAt (l : List Char) (i : Nat) : Bool :=
  match l.get? i with
  | some c => isWordChar c
  | none => false

/-- Regex `\b` at position `i` of `l`: word-ness changes across the
position (outside the string counts as non-word). -/
def boundaryAt (l : List Char) (i : Nat) : Bool :=
  (if i = 0 then false else wordAt l (i - 1)) != wordAt l i

/-- `re.search(r"\b" + re.escape(kw) + r"\b", hay)`: the literal `kw`
occurs at some position with a word boundary on both sides. -/
def searchWordBound (hay kw : String) : Bool :=
  (List.range (hay.toList.length + 1)).any (fun i =>
    kw.toList.isPrefixOf (hay.toList.drop i) && boundaryAt hay.toList i &&
      boundaryAt hay.toList (i + kw.toList.length))

/-- `app/parts/part4.py` `_answer_uses_keyword`. -/
def answer_uses_keyword (answer keyword : String) : Bool :=
  if answer = "" || keyword = "" then false
  else searchWordBound (norm answer) (pyToLower (pyStrip keyword))

/-- `app/parts/part4.py` `_part4_answer_length_ok`: 3 to 5 words. -/
def part4_answer_length_ok (answer : String) : Bool :=
  3 ≤ word_count answer && word_count answer ≤ 5

/-- Python `str.replace(pat, rep)` (all occurrences, left to right,
non-overlapping), with fuel so it reduces in the kernel; fuel
`l.length` is enough since every step consumes at least one character. -/
def replaceAllF : Nat → List Char → List Char → List Char → List Char
  | 0, l, _, _ => l
  | fuel + 1, l, pat, rep =>
    match l with
    | [] => []
    | c :: rest =>
      if !pat.isEmpty && pat.isPrefixOf (c :: rest) then
        rep ++ replaceAllF fuel ((c :: rest).drop pat.length) pat rep
      else c :: replaceAllF fuel rest pat rep

def pyReplace (s pat rep : String) : String :=
  String.mk (replaceAllF s.toList.length s.toList pat.toList rep.toList)

/-- `app/parts/part4.py` `_part4_sentence2_same_as_sentence1`: `False`
unless both sentences are non-empty and the gap marker is present;
otherwise whether the answer-filled sentence2 normalize-equals
sentence1. -/
def part4_sentence2_same_as_sentence1 (sentence1 sentence2 answer : String) : Bool :=
  if sentence1 = "" || sentence2 = "" || !containsSub sentence2 "_____" then false
  else norm (pyStrip (pyReplace sentence2 "_____" (pyStrip answer))) = norm sentence1

/-- One stored `uoe_tasks` row (columns used by generation). -/
structure UoeRow where
  id : Nat
  sentence1 : String
  keyword : String
  sentence2 : String
  answer : String
  grammar_topic : Option String
deriving Repr, DecidableEq

/-- The `uoe_tasks` table: rows in insertion order plus the autoincrement
counter (`lastrowid` of the next insert). -/
structure UoeDB where
  rows : List UoeRow
  nextId : Nat
deriving Repr, DecidableEq

/-- `app/parts/part4.py` `_part4_similar_to_existing`: scan the newest
500 rows (excluding ids inserted earlier in this batch) for a ratio of
at least 0.88 against either the new sentence1 or the new reconstructed
sentence2. -/
def part4_similar_to_existing (db : UoeDB)
    (sentence1 sentence2 answer : String) (exclude_ids : List Nat) : Bool :=
  if sentence1 = "" || sentence2 = "" || !containsSub sentence2 "_____" then false
  else
    (db.rows.reverse.take 500).any (fun r =>
      !(exclude_ids.contains r.id) &&
        ((!(norm r.sentence1 = "") &&
            ratioGe88 (norm sentence1) (norm r.sentence1)) ||
          (!(norm (pyReplace r.sentence2 "_____" (pyStrip r.answer)) = "") &&
            ratioGe88 (norm (pyReplace sentence2 "_____" (pyStrip answer)))
              (norm (pyReplace r.sentence2 "_____" (pyStrip r.answer))))))

/-- `app/db.py` `uoe_task_exists`: exact match on (stripped sentence1,
stripped upper-cased keyword). -/
def uoe_task_exists (db : UoeDB) (sentence1 keyword : String) : Bool :=
  db.rows.any (fun r =>
    r.sentence1 = pyStrip sentence1 && r.keyword = pyToUpper (pyStrip keyword))

/-- `re.sub(r"\s+_{2,}\s*", " _____ ", s)` with fuel (the recursion
consumes at least one character per step): a whitespace run followed by
at least two underscores, plus any trailing whitespace, becomes the
canonical gap marker. -/
def subGapRunsF : Nat → List Char → List Char
  | 0, l => l
  | fuel + 1, l =>
    match l with
    | [] => []
    | c :: rest =>
      if isSpaceChar c then
        if ((rest.dropWhile isSpaceChar).takeWhile (fun d => d = '_')).length ≥ 2 then
          ' ' :: '_' :: '_' :: '_' :: '_' :: '_' :: ' ' ::
            subGapRunsF fuel
              (((rest.dropWhile isSpaceChar).dropWhile (fun d => d = '_')).dropWhile
                isSpaceChar)
        else c :: subGapRunsF fuel rest
      else c :: subGapRunsF fuel rest

/-- The sentence2 normalization step of the batch loop: if the gap marker
is absent, canonicalize runs of two or more underscores. -/
def massageS2 (s2 : String) : String :=
  if containsSub s2 "_____" then s2
  else String.mk (subGapRunsF s2.toList.length s2.toList)

/-- One parsed item of the provider's JSON array; raw field values
(missing keys behave as `""`). -/
structure P4Candidate where
  sentence1 : String
  keyword : String
  sentence2 : String
  answer : String
  grammar_topic : String
deriving Repr, DecidableEq

/-- One provider attempt in `_generate_tasks_with_openai`: an exception
(`failure`) breaks the attempt loop; a parsed JSON value that is not a
list (`notList`) skips to the next attempt; otherwise the parsed items
(no JSON array in the text gives `items []`). -/
inductive P4Resp where
  | failure
  | notList
  | items (l : List P4Candidate)
deriving Repr, DecidableEq

/-- Field normalizations applied at the top of the batch loop body. -/
def p4s1 (it : P4Candidate) : String := pyStrip it.sentence1

def p4kw (it : P4Candidate) : String := pyToUpper (pyStrip it.keyword)

def p4s2 (it : P4Candidate) : String := massageS2 (pyStrip it.sentence2)

def p4ans (it : P4Candidate) : String := pyStrip it.answer

def p4gt (it : P4Candidate) : Option String :=
  if pyStrip it.grammar_topic = "" then none else some (pyStrip it.grammar_topic)

/-- The conjunction of the (side-effect-free) `continue` guards of the
batch loop, in source order: an item is inserted iff none of them
fires. -/
def p4Accepts (db : UoeDB) (result : List UoeRow) (topics : List String)
    (it : P4Candidate) : Bool :=
  !(p4s1 it = "" || p4kw it = "" || p4s2 it = "" || p4ans it = "") &&
    answer_uses_keyword (p4ans it) (p4kw it) &&
    part4_answer_length_ok (p4ans it) &&
    !part4_sentence2_same_as_sentence1 (p4s1 it) (p4s2 it) (p4ans it) &&
    !part4_similar_to_existing db (p4s1 it) (p4s2 it) (p4ans it)
      (result.map (fun x => x.id)) &&
    !uoe_task_exists db (p4s1 it) (p4kw it) &&
    !(match p4gt it with
      | some g => topics.contains (pyToLower g)
      | none => false)

/-- The row inserted for an accepted item (`lastrowid = db.nextId`). -/
def p4NewRow (db : UoeDB) (it : P4Candidate) : UoeRow :=
  ⟨db.nextId, p4s1 it, p4kw it, p4s2 it, p4ans it, p4gt it⟩

/-- The per-item body of the batch loop: normalize fields, run all the
semantic filters, and insert on acceptance. Returns the updated table,
batch result list and per-batch grammar-topic set. -/
def p4ProcessItem (db : UoeDB) (result : List UoeRow) (topics : List String)
    (it : P4Candidate) : UoeDB × List UoeRow × List String :=
  if p4Accepts db result topics it then
    (⟨db.rows ++ [p4NewRow db it], db.nextId + 1⟩,
      result ++ [p4NewRow db it],
      topics ++ (match p4gt it with | some g => [pyToLower g] | none => []))
  else (db, result, topics)

def p4ProcessList : List P4Candidate → UoeDB → List UoeRow → List String →
    UoeDB × List UoeRow × List String
  | [], db, res, tops => (db, res, tops)
  | it :: rest, db, res, tops =>
    p4ProcessList rest (p4ProcessItem db res tops it).1
      (p4ProcessItem db res tops it).2.1 (p4ProcessItem db res tops it).2.2

/-- The `for attempt in range(2)` loop of `_generate_tasks_with_openai`:
stop when `need = count - len(result)` reaches 0, break on a provider
exception, skip a non-list payload, and feed `arr[:need]` of a list
payload through the item loop. -/
def p4Attempts : List P4Resp → Nat → UoeDB → List UoeRow → List String →
    List UoeRow × UoeDB
  | [], _, db, res, _ => (res, db)
  | r :: rest, count, db, res, tops =>
    if count - res.length = 0 then (res, db)
    else
      match r with
      | P4Resp.failure => (res, db)
      | P4Resp.notList => p4Attempts rest count db res tops
      | P4Resp.items arr =>
        p4Attempts rest count
          (p4ProcessList (arr.take (count - res.length)) db res tops).1
          (p4ProcessList (arr.take (count - res.length)) db res tops).2.1
          (p4ProcessList (arr.take (count - res.length)) db res tops).2.2

/-- `app/parts/part4.py` `_generate_tasks_with_openai`: empty result when
the provider is unconfigured, else at most two batch attempts.
Returns (result items, updated table). -/
def generate_tasks_with_openai (clientConfigured : Bool) (count : Nat)
    (responses : List P4Resp) (db : UoeDB) : List UoeRow × UoeDB :=
  if !clientConfigured then ([], db)
  else p4Attempts (responses.take 2) count db [] []

/-- A persisted sentence-transformation row is non-trivial: if its
sentence2 carries the gap marker, substituting the stored answer does not
reproduce sentence1 up to normalization. -/
def p4NonTrivial (r : UoeRow) : Prop :=
  containsSub r.sentence2 "_____" = true →
    norm (pyStrip (pyReplace r.sentence2 "_____" (pyStrip r.answer))) ≠ norm r.sentence1


/-- A fold that at each step keeps either the accumulator or the new
element ends at the initial value or at a list element. -/
theorem foldl_choice {α : Type} (f : α → α → α) (hf : ∀ b c, f b c = b ∨ f b c = c)
    (l : List α) (init : α) : l.foldl f init = init ∨ l.foldl f init ∈ l := by
  induction l generalizing init with
  | nil => exact Or.inl rfl
  | cons c rest ih =>
    simp only [List.foldl_cons]
    rcases ih (f init c) with h | h
    · rw [h]
      rcases hf init c with h2 | h2
      · exact Or.inl h2
      · exact Or.inr (by rw [h2]; exact List.mem_cons_self _ _)
    · exact Or.inr (List.mem_cons_of_mem _ h)

/-- Each candidate kept by `flm` is a genuine matching block (or the zero
default). -/
theorem flm_spec (a b : List Char) :
    (flm a b).2.2 = 0 ∨
      ((flm a b).1 < a.length ∧ (flm a b).2.1 < b.length ∧
        (flm a b).2.2 = cpl (a.drop (flm a b).1) (b.drop (flm a b).2.1)) := by
  have hch := foldl_choice (fun best c => if c.2.2 > best.2.2 then c else best)
    (fun best c => by by_cases h : c.2.2 > best.2.2 <;> simp [h])
    ((List.range a.length).flatMap fun i =>
      (List.range b.length).map fun j => (i, j, cpl (a.drop i) (b.drop j)))
    (0, 0, 0)
  rcases hch with h | h
  · exact Or.inl (by simp only [flm]; rw [h])
  · right
    simp only [flm]
    simp only [List.mem_flatMap, List.mem_map, List.mem_range] at h
    obtain ⟨i, hi, j, hj, hc⟩ := h
    rw [← hc]
    exact ⟨hi, hj, rfl⟩

/-- With enough fuel, `roMatchF` no longer depends on the fuel. -/
theorem roMatchF_fuel_inv : ∀ (f g : Nat) (a b : List Char),
    a.length ≤ f → a.length ≤ g → roMatchF f a b = roMatchF g a b := by
  intro f
  induction f with
  | zero =>
    intro g a b hf _
    have ha : a = [] := List.length_eq_zero.mp (Nat.le_zero.mp hf)
    subst ha
    cases g with
    | zero => rfl
    | succ g =>
      have : flm [] b = (0, 0, 0) := rfl
      simp [roMatchF, this]
  | succ f ih =>
    intro g a b hf hg
    cases g with
    | zero =>
      have ha : a = [] := List.length_eq_zero.mp (Nat.le_zero.mp hg)
      subst ha
      have : flm [] b = (0, 0, 0) := rfl
      simp [roMatchF, this]
    | succ g =>
      show roMatchF (f + 1) a b = roMatchF (g + 1) a b
      simp only [roMatchF]
      rcases flm_spec a b with h0 | ⟨hia, _, _⟩
      · simp only [h0, if_true]
      · by_cases hz : (flm a b).2.2 = 0
        · simp only [hz, if_true]
        · simp only [hz, if_false]
          have hb1 : (a.take (flm a b).1).length ≤ f := by
            simp only [List.length_take]
            omega
          have hb2 : (a.take (flm a b).1).length ≤ g := by
            simp only [List.length_take]
            omega
          have hb3 : (a.drop ((flm a b).1 + (flm a b).2.2)).length ≤ f := by
            simp only [List.length_drop]
            omega
          have hb4 : (a.drop ((flm a b).1 + (flm a b).2.2)).length ≤ g := by
            simp only [List.length_drop]
            omega
          rw [ih g _ _ hb1 hb2, ih g _ _ hb3 hb4]

theorem mem_excludedWith {x : Nat} {e : List Nat} {oc : Option Nat} :
    x ∈ excludedWith e oc ↔ x ∈ e ∨ oc = some x := by
  cases oc with
  | none =>
    simp [excludedWith]
  | some c =>
    rw [excludedWith]
    by_cases hc : c ∈ e
    · rw [if_pos hc]
      constructor
      · exact fun h => Or.inl h
      · rintro (h | h)
        · exact h
        · rw [Option.some.injEq] at h
          rw [← h]
          exact hc
    · rw [if_neg hc]
      simp only [List.mem_append, List.mem_singleton, Option.some.injEq]
      constructor
      · rintro (h | h)
        · exact Or.inl h
        · exact Or.inr h.symm
      · rintro (h | h)
        · exact Or.inl h
        · exact Or.inr h.symm

/-- The list-head oracle is a sound `RANDOM() LIMIT 1` oracle. -/
theorem choiceSound_head : ChoiceSound List.head? := by
  intro l x h
  cases l with
  | nil => cases h
  | cons a t =>
    simp only [List.head?_cons, Option.some.injEq] at h
    rw [← h]
    exact List.mem_cons_self _ _

/-! ### Take/filter/distinct lemmas for the exclusion window -/

theorem mem_take_mono {α : Type} {x : α} {l : List α} {m n : Nat}
    (h : x ∈ l.take m) (hmn : m ≤ n) : x ∈ l.take n := by
  have : l.take m = (l.take n).take m := by
    rw [List.take_take, Nat.min_eq_left hmn]
  rw [this] at h
  exact List.take_subset _ _ h

theorem mem_take_filter {x : Nat} {p : Nat → Bool} :
    ∀ {l : List Nat} {n : Nat}, x ∈ l.take n → p x = true → x ∈ (l.filter p).take n := by
  intro l
  induction l with
  | nil => intro n h _; simp at h
  | cons y ys ih =>
    intro n h hp
    match n with
    | 0 => simp at h
    | Nat.succ m =>
      simp only [List.take_succ_cons, List.mem_cons] at h
      rcases h with rfl | h
      · rw [List.filter_cons_of_pos hp]
        exact List.mem_cons_self _ _
      · have hmem := ih h hp
        by_cases hy : p y = true
        · rw [List.filter_cons_of_pos hy]
          simp only [List.take_succ_cons, List.mem_cons]
          exact Or.inr hmem
        · rw [List.filter_cons_of_neg (by simpa using hy)]
          exact mem_take_mono hmem (Nat.le_succ m)

/-- Every id among the first `n` entries of a scan appears among the first
`n` entries of the deduplicated scan. -/
theorem mem_take_distinctFirstAux {x : Nat} :
    ∀ {l : List Nat} {seen : List Nat} {n : Nat},
      x ∈ l.take n → x ∉ seen → x ∈ (distinctFirstAux l seen).take n := by
  intro l
  induction l with
  | nil => intro seen n h _; simp at h
  | cons y ys ih =>
    intro seen n h hseen
    match n with
    | 0 => simp at h
    | Nat.succ m =>
      simp only [List.take_succ_cons, List.mem_cons] at h
      rw [distinctFirstAux]
      by_cases hy : y ∈ seen
      · rw [if_pos hy]
        rcases h with rfl | h
        · exact absurd hy hseen
        · exact ih (mem_take_mono h (Nat.le_succ m)) hseen
      · rw [if_neg hy]
        rcases h with rfl | h
        · simp [List.take_succ_cons]
        · by_cases hxy : x = y
          · subst hxy
            simp [List.take_succ_cons]
          · have hns : x ∉ y :: seen := by
              intro hc
              rcases List.mem_cons.mp hc with rfl | hc
              · exact hxy rfl
              · exact hseen hc
            have := ih h hns
            simp only [List.take_succ_cons, List.mem_cons]
            exact Or.inr this

/-- Every id among the first `n` entries of a scan appears among the first
`n` entries of the deduplicated scan. -/
theorem mem_take_distinctFirst {x : Nat} {l : List Nat} {n : Nat}
    (h : x ∈ l.take n) : x ∈ (distinctFirst l).take n :=
  mem_take_distinctFirstAux h (List.not_mem_nil x)

/-- A picked id is outside the exclusion list actually computed by
`_pick_one_task_id` (the code's list, before relating it to the spec's). -/
theorem pick_one_task_id_sound {choose : List Nat → Option Nat}
    (hch : ChoiceSound choose) {tasks shows : List Nat}
    {exclude_current : Option Nat} {tid : Nat}
    (h : pick_one_task_id choose tasks shows exclude_current = some tid) :
    tid ∈ tasks ∧ tid ∉ get_excluded_ids shows ∧
      ∀ c, exclude_current = some c → tid ≠ c := by
  unfold pick_one_task_id at h
  have hmem := hch _ _ h
  rw [List.mem_filter] at hmem
  obtain ⟨htask, hnot⟩ := hmem
  simp only [decide_eq_true_eq] at hnot
  refine ⟨htask, ?_, ?_⟩
  · intro hexc
    exact hnot (mem_excludedWith.mpr (Or.inl hexc))
  · intro c hc hne
    subst hc
    subst hne
    exact hnot (mem_excludedWith.mpr (Or.inr rfl))

/-- C1: for every exercise type with a registered schema and every store
state, an id returned by the Repetition-Avoidance Picker
(`pick_task_id_for_part` / `_pick_one_task_id`) does not appear among the
task ids of the most recent 100 show events of that type (so in
particular it is outside the set of distinct ids of those events), is not
the optional `exclude_current` id, and the window is the fixed count
`LAST_N_SHOWS = 100` of show events, not a time window. -/
theorem c1_picker_avoids_recent_and_current
    (choose : List Nat → Option Nat) (hch : ChoiceSound choose)
    (db : Nat → PartStore) (part : Nat) (exclude_current : Option Nat) (tid : Nat)
    (hpick : pick_task_id_for_part choose db part exclude_current = some tid) :
    tid ∉ (db part).shows.reverse.take LAST_N_SHOWS ∧
      (∀ c, exclude_current = some c → tid ≠ c) ∧ LAST_N_SHOWS = 100 := by
  unfold pick_task_id_for_part at hpick
  by_cases hs : partHasSchema part = true
  · simp only [hs, if_true] at hpick
    obtain ⟨_, hexc, hcur⟩ := pick_one_task_id_sound hch hpick
    refine ⟨?_, hcur, rfl⟩
    intro hmem
    exact hexc (mem_take_distinctFirst hmem)
  · simp only [hs, if_false] at hpick
    cases hpick

/-- The fallback either leaves the store untouched with an absent result,
or returns a row and records exactly one show for it. -/
theorem genericFallback_spec (choose : List Nat → Option Nat)
    (exclude_task_id : Option Nat) (s : PartStore) :
    genericFallback choose exclude_task_id s = ((none, none), s) ∨
      ∃ tid, genericFallback choose exclude_task_id s =
        ((get_task_by_id s tid, some tid), record_show s tid) := by
  unfold genericFallback
  cases h : choose (match exclude_task_id with
    | some ex => s.tasks.filter (fun i => i ≠ ex)
    | none => s.tasks) with
  | none => exact Or.inl rfl
  | some tid => exact Or.inr ⟨tid, rfl⟩

/-! Branch equations for `generic_get_or_create`. -/

theorem goc_no_schema {choose part generate_fn exclude_task_id openai_available s}
    (hschema : ¬partHasSchema part = true) :
    generic_get_or_create choose part generate_fn exclude_task_id openai_available s =
      ((none, none), s) := by
  rw [generic_get_or_create.eq_def, if_neg hschema]

theorem goc_pick_some {choose part generate_fn exclude_task_id openai_available s tid}
    (hschema : partHasSchema part = true)
    (hpick : pick_one_task_id choose s.tasks s.shows exclude_task_id = some tid) :
    generic_get_or_create choose part generate_fn exclude_task_id openai_available s =
      ((get_task_by_id s tid, some tid), record_show s tid) := by
  rw [generic_get_or_create.eq_def, if_pos hschema, hpick]

theorem goc_provider_off {choose part generate_fn exclude_task_id s}
    (hschema : partHasSchema part = true)
    (hpick : pick_one_task_id choose s.tasks s.shows exclude_task_id = none) :
    generic_get_or_create choose part generate_fn exclude_task_id false s =
      genericFallback choose exclude_task_id s := by
  rw [generic_get_or_create.eq_def, if_pos hschema, hpick]
  rfl

theorem goc_no_generator {choose part exclude_task_id s}
    (hschema : partHasSchema part = true)
    (hpick : pick_one_task_id choose s.tasks s.shows exclude_task_id = none) :
    generic_get_or_create choose part none exclude_task_id true s =
      genericFallback choose exclude_task_id s := by
  rw [generic_get_or_create.eq_def, if_pos hschema, hpick]
  rfl

theorem goc_gen_none {choose part gen exclude_task_id s s1}
    (hschema : partHasSchema part = true)
    (hpick : pick_one_task_id choose s.tasks s.shows exclude_task_id = none)
    (hgs : gen s = (none, s1)) :
    generic_get_or_create choose part (some gen) exclude_task_id true s =
      genericFallback choose exclude_task_id s1 := by
  rw [generic_get_or_create.eq_def, if_pos hschema, hpick]
  show (match gen s with
    | (some item, s1) =>
      match s1.tasks.getLast? with
      | some rid => ((some item, some rid), record_show s1 rid)
      | none => ((some item, none), s1)
    | (none, s1) => genericFallback choose exclude_task_id s1) = _
  rw [hgs]

theorem goc_gen_some {choose part gen exclude_task_id s it s1 rid}
    (hschema : partHasSchema part = true)
    (hpick : pick_one_task_id choose s.tasks s.shows exclude_task_id = none)
    (hgs : gen s = (some it, s1)) (hlast : s1.tasks.getLast? = some rid) :
    generic_get_or_create choose part (some gen) exclude_task_id true s =
      ((some it, some rid), record_show s1 rid) := by
  rw [generic_get_or_create.eq_def, if_pos hschema, hpick]
  show (match gen s with
    | (some item, s1) =>
      match s1.tasks.getLast? with
      | some rid => ((some item, some rid), record_show s1 rid)
      | none => ((some item, none), s1)
    | (none, s1) => genericFallback choose exclude_task_id s1) = _
  rw [hgs]
  show (match s1.tasks.getLast? with
    | some rid => ((some it, some rid), record_show s1 rid)
    | none => ((some it, none), s1)) = _
  rw [hlast]

theorem goc_gen_some_norow {choose part gen exclude_task_id s it s1}
    (hschema : partHasSchema part = true)
    (hpick : pick_one_task_id choose s.tasks s.shows exclude_task_id = none)
    (hgs : gen s = (some it, s1)) (hlast : s1.tasks.getLast? = none) :
    generic_get_or_create choose part (some gen) exclude_task_id true s =
      ((some it, none), s1) := by
  rw [generic_get_or_create.eq_def, if_pos hschema, hpick]
  show (match gen s with
    | (some item, s1) =>
      match s1.tasks.getLast? with
      | some rid => ((some item, some rid), record_show s1 rid)
      | none => ((some item, none), s1)
    | (none, s1) => genericFallback choose exclude_task_id s1) = _
  rw [hgs]
  show (match s1.tasks.getLast? with
    | some rid => ((some it, some rid), record_show s1 rid)
    | none => ((some it, none), s1)) = _
  rw [hlast]

/-- C2: whenever `_generic_get_or_create` returns a non-absent item,
exactly one new ShowEvent row is appended to that exercise type's show
log during the call, and that row references the task id returned by the
call. The generator hypotheses mirror the per-part generators: they never
touch the show log, and when they report success they have inserted a
task row (so the `SELECT id ... DESC LIMIT 1` read-back finds one). -/
theorem c2_show_event_accounting
    (choose : List Nat → Option Nat) (part : Nat)
    (generate_fn : Option (PartStore → Option Nat × PartStore))
    (exclude_task_id : Option Nat) (openai_available : Bool) (s : PartStore)
    (hgen_shows : ∀ g, generate_fn = some g → ∀ st, ((g st).2).shows = st.shows)
    (hgen_tasks : ∀ g, generate_fn = some g → ∀ st, (g st).1 ≠ none → ((g st).2).tasks ≠ [])
    (item : Nat)
    (hsucc : (generic_get_or_create choose part generate_fn exclude_task_id
        openai_available s).1.1 = some item) :
    ∃ t, (generic_get_or_create choose part generate_fn exclude_task_id
        openai_available s).1.2 = some t ∧
      (generic_get_or_create choose part generate_fn exclude_task_id
        openai_available s).2.shows = s.shows ++ [t] := by
  have hfall : ∀ st : PartStore, st.shows = s.shows →
      (genericFallback choose exclude_task_id st).1.1 = some item →
      ∃ t, (genericFallback choose exclude_task_id st).1.2 = some t ∧
        (genericFallback choose exclude_task_id st).2.shows = s.shows ++ [t] := by
    intro st hst hit
    rcases genericFallback_spec choose exclude_task_id st with h | ⟨tid, h⟩
    · rw [h] at hit
      cases hit
    · rw [h]
      exact ⟨tid, rfl, by rw [record_show, hst]⟩
  by_cases hschema : partHasSchema part = true
  · rcases hpick : pick_one_task_id choose s.tasks s.shows exclude_task_id with _ | tid
    · cases openai_available with
      | false =>
        rw [goc_provider_off hschema hpick] at hsucc ⊢
        exact hfall s rfl hsucc
      | true =>
        rcases hgf : generate_fn with _ | gen
        · rw [hgf] at hsucc
          rw [goc_no_generator hschema hpick] at hsucc ⊢
          exact hfall s rfl hsucc
        · have hshows : (gen s).2.shows = s.shows := hgen_shows gen hgf s
          rw [hgf] at hsucc
          rcases hgs : gen s with ⟨genItem, s1⟩
          rw [hgs] at hshows
          rcases genItem with _ | it
          · rw [goc_gen_none hschema hpick hgs] at hsucc ⊢
            exact hfall s1 hshows hsucc
          · have htasks : s1.tasks ≠ [] := by
              have h2 := hgen_tasks gen hgf s
              rw [hgs] at h2
              exact h2 (fun h => by cases h)
            rcases hlast : s1.tasks.getLast? with _ | rid
            · exact absurd (List.getLast?_eq_none_iff.mp hlast) htasks
            · rw [goc_gen_some hschema hpick hgs hlast] at hsucc ⊢
              exact ⟨rid, rfl, by rw [record_show, hshows]⟩
    · rw [goc_pick_some hschema hpick] at hsucc ⊢
      exact ⟨tid, rfl, rfl⟩
  · rw [goc_no_schema hschema] at hsucc
    cases hsucc

/-- Witness for C2: one task, no show history, provider off; the call
returns task 5 and appends exactly the show event for task 5. -/
theorem c2_witness :
    (generic_get_or_create List.head? 1 none none false ⟨[5], []⟩).1.1 = some 5 ∧
      ∃ t, (generic_get_or_create List.head? 1 none none false ⟨[5], []⟩).1.2 = some t ∧
        (generic_get_or_create List.head? 1 none none false ⟨[5], []⟩).2.shows =
          ([] : List Nat) ++ [t] :=
  ⟨by decide,
    c2_show_event_accounting List.head? 1 none none false ⟨[5], []⟩
      (fun g h => by cases h) (fun g h => by cases h) 5 (by decide)⟩

/-- A sound oracle returns `none` on the empty candidate list (SQLite:
`fetchone()` on an empty result set is `None`). -/
theorem choose_nil_eq_none {choose : List Nat → Option Nat}
    (hch : ChoiceSound choose) : choose [] = none := by
  cases h : choose [] with
  | none => rfl
  | some x => exact absurd (hch _ _ h) (List.not_mem_nil x)

/-- C4: with the generative provider unconfigured
(`openai_available = false`, as in `get_or_create_part1_task` when
`openai_client is None`) and no rows stored for the exercise type,
`_generic_get_or_create` returns `(None, None)` without invoking any
generator (the result holds for every `generate_fn`, which is never
applied) and without touching the store, so no exception can escape: the
failure resolves to an absent result. -/
theorem c4_provider_off_empty_store
    (choose : List Nat → Option Nat) (hch : ChoiceSound choose)
    (part : Nat) (generate_fn : Option (PartStore → Option Nat × PartStore))
    (exclude_task_id : Option Nat) (s : PartStore) (hempty : s.tasks = []) :
    generic_get_or_create choose part generate_fn exclude_task_id false s =
      ((none, none), s) := by
  by_cases hschema : partHasSchema part = true
  · have hpick : pick_one_task_id choose s.tasks s.shows exclude_task_id = none := by
      unfold pick_one_task_id
      rw [hempty]
      exact choose_nil_eq_none hch
    rw [goc_provider_off hschema hpick]
    cases exclude_task_id with
    | none =>
      simp [genericFallback, hempty, choose_nil_eq_none hch]
    | some ex =>
      simp [genericFallback, hempty, List.filter_nil, choose_nil_eq_none hch]
  · exact goc_no_schema hschema

/-- Witness for C4: empty store, provider off; the call returns
`(none, none)` and leaves the store unchanged. -/
theorem c4_witness :
    (⟨[], [7]⟩ : PartStore).tasks = [] ∧
      generic_get_or_create List.head? 1 none none false ⟨[], [7]⟩ =
        ((none, none), ⟨[], [7]⟩) :=
  ⟨rfl, c4_provider_off_empty_store List.head? choiceSound_head 1 none none
    ⟨[], [7]⟩ rfl⟩

/-- Witness for C1 at a concrete store: three tasks, task 3 just shown,
task 2 on screen; the picker returns task 1, which avoids both. -/
theorem c1_witness :
    pick_task_id_for_part List.head? (fun _ => ⟨[1, 2, 3], [3]⟩) 1 (some 2) = some 1 ∧
      1 ∉ ((fun (_ : Nat) => PartStore.mk [1, 2, 3] [3]) 1).shows.reverse.take LAST_N_SHOWS ∧
      (∀ c, (some 2 : Option Nat) = some c → 1 ≠ c) ∧ LAST_N_SHOWS = 100 :=
  ⟨by decide,
    c1_picker_avoids_recent_and_current List.head? choiceSound_head
      (fun _ => ⟨[1, 2, 3], [3]⟩) 1 (some 2) 1 (by decide)⟩

/-! ### Claims C3 and C10: `answers_match` behaviour -/

theorem flatMap_const_nil (l : List Nat) :
    (l.flatMap fun _ => ([] : List (Nat × Nat × Nat))) = [] := by
  induction l with
  | nil => rfl
  | cons x xs ih => simp [List.flatMap_cons, ih]

theorem flm_nil_right (a : List Char) : flm a [] = (0, 0, 0) := by
  unfold flm
  rw [show ([] : List Char).length = 0 from rfl, List.range_zero]
  simp only [List.map_nil]
  rw [flatMap_const_nil]
  rfl

theorem roMatchF_nil_right : ∀ (f : Nat) (a : List Char), roMatchF f a [] = 0 := by
  intro f
  cases f with
  | zero => intro a; rfl
  | succ f =>
    intro a
    rw [roMatchF]
    rw [show (flm a []).2.2 = 0 by rw [flm_nil_right]]
    simp

theorem roMatch_nil_right (a : List Char) : roMatch a [] = 0 :=
  roMatchF_nil_right _ a

theorem roMatch_nil_left (b : List Char) : roMatch [] b = 0 := rfl

/-- A string with an empty character list is the empty string. -/
theorem string_eq_empty_of_isEmpty {s : String} (h : s.toList.isEmpty = true) :
    s = "" := by
  cases s with
  | mk data =>
    cases data with
    | nil => rfl
    | cons c cs => cases h

/-- `answers_match` holds exactly on normalized equality or ratio at least
0.88 of the normalizations (a blank on exactly one side always fails both
disjuncts, since its ratio is 0; two blanks are normalize-equal). -/
theorem answers_match_iff (u e : String) :
    answers_match u e = true ↔
      (norm u = norm e ∨ ratioGe88 (norm u) (norm e) = true) := by
  unfold answers_match
  by_cases h : norm u = norm e
  · simp [h]
  · rw [if_neg h]
    by_cases hae : (norm u).toList.isEmpty = true
    · have hu : norm u = "" := string_eq_empty_of_isEmpty hae
      rw [hae]
      simp only [Bool.true_or, if_true]
      constructor
      · intro hfalse
        cases hfalse
      · rintro (hc | hc)
        · exact absurd hc h
        · exfalso
          unfold ratioGe88 at hc
          rw [hu] at hc
          rw [show ("" : String).toList = [] from rfl] at hc
          rw [roMatch_nil_left] at hc
          simp only [decide_eq_true_eq, List.length_nil, Nat.mul_zero, Nat.zero_add] at hc
          have hb0 : (norm e).toList.length = 0 := by omega
          have hbe : norm e = "" :=
            string_eq_empty_of_isEmpty (by
              cases hb : (norm e).toList with
              | nil => rfl
              | cons c cs => rw [hb] at hb0; cases hb0)
          exact h (hu.trans hbe.symm)
    · rw [Bool.not_eq_true] at hae
      rw [hae]
      by_cases hbe : (norm e).toList.isEmpty = true
      · have he : norm e = "" := string_eq_empty_of_isEmpty hbe
        rw [hbe]
        simp only [Bool.false_or, if_true]
        constructor
        · intro hfalse
          cases hfalse
        · rintro (hc | hc)
          · exact absurd hc h
          · exfalso
            unfold ratioGe88 at hc
            rw [he] at hc
            rw [show ("" : String).toList = [] from rfl] at hc
            rw [roMatch_nil_right] at hc
            simp only [decide_eq_true_eq, List.length_nil, Nat.mul_zero, Nat.add_zero] at hc
            have ha0 : (norm u).toList.length = 0 := by omega
            have hau : norm u = "" :=
              string_eq_empty_of_isEmpty (by
                cases hb : (norm u).toList with
                | nil => rfl
                | cons c cs => rw [hb] at ha0; cases ha0)
            exact h (hau.trans he.symm)
      · rw [Bool.not_eq_true] at hbe
        rw [hbe]
        simp only [Bool.or_self, if_false]
        constructor
        · intro hr
          exact Or.inr hr
        · rintro (hc | hc)
          · exact absurd hc h
          · exact hc

set_option maxRecDepth 4000 in
/-- C3 (counterexample): the claim asserts
`answers_match("recieve", "receive")` returns true, but the code returns
false: the Ratcliff-Obershelp match total is 6 of 14 characters, ratio
6/7 which is about 0.857, below the 0.88 threshold. -/
theorem c3_counterexample :
    answers_match "recieve" "receive" = false ∧
      roMatch "recieve".toList "receive".toList = 6 := by
  constructor
  · decide
  · decide

set_option maxRecDepth 4000 in
/-- C3 (amended): `answers_match("recieve", "receive")` returns false
(ratio 6/7, about 0.857, is below 0.88); `answers_match("wrong", "right")`
returns false; and in general two free-text answers match exactly when
their case/whitespace normalizations are equal or the SequenceMatcher
ratio of the normalizations is at least 0.88. -/
theorem c3_fuzzy_match_boundary :
    answers_match "recieve" "receive" = false ∧
      answers_match "wrong" "right" = false ∧
      ∀ u e : String, answers_match u e = true ↔
        (norm u = norm e ∨ ratioGe88 (norm u) (norm e) = true) :=
  ⟨by decide, by decide, answers_match_iff⟩

/-- C10: normalize-equal inputs (including two blank or whitespace-only
answers, which both normalize to the empty string) always match; when
exactly one side normalizes to the empty string, the answers never match,
so a blank submission against a non-empty key grades incorrect rather
than erroring. -/
theorem c10_blank_answer_handling (u e : String) :
    (norm u = norm e → answers_match u e = true) ∧
      ((norm u = "" ∧ norm e ≠ "") ∨ (norm u ≠ "" ∧ norm e = "") →
        answers_match u e = false) := by
  constructor
  · intro h
    unfold answers_match
    rw [if_pos h]
  · rintro (⟨hu, he⟩ | ⟨hu, he⟩)
    · unfold answers_match
      rw [if_neg (fun hc => he (by rw [← hc]; exact hu))]
      rw [hu]
      rw [show ("" : String).toList.isEmpty = true from rfl]
      rw [Bool.true_or, if_pos rfl]
    · unfold answers_match
      rw [if_neg (fun hc => hu (by rw [hc]; exact he))]
      rw [he]
      rw [show ("" : String).toList.isEmpty = true from rfl]
      rw [Bool.or_true, if_pos rfl]

/-- Witness for C10: two whitespace-only answers match; a blank answer
never matches the non-empty expected answer "cat". -/
theorem c10_witness :
    (norm "  " = norm "\t" ∧ answers_match "  " "\t" = true) ∧
      (norm "" = "" ∧ norm "cat" ≠ "" ∧ answers_match "" "cat" = false) :=
  ⟨⟨by decide, (c10_blank_answer_handling "  " "\t").1 (by decide)⟩,
    ⟨by decide, by decide,
      (c10_blank_answer_handling "" "cat").2 (Or.inl ⟨by decide, by decide⟩)⟩⟩

theorem parse_getD_eq_iff (o : Option Int) (c : Nat) :
    (o.getD (-1) = (c : Int)) ↔ o = some (c : Int) := by
  cases o with
  | none =>
    simp only [Option.getD_none, Option.some.injEq]
    constructor
    · intro h
      exfalso
      omega
    · intro h
      cases h
  | some v => simp

/-- C8: grading a resolved Part 1 task never fails: each detail's correct
flag is true exactly when the raw submission parses as an integer equal
to the stored correct index (a missing or unparsable submission parses to
`-1` and is graded incorrect), and the score is the number of gaps graded
correct. -/
theorem c8_check_part1_grading (gaps : List Gap) (form : Nat → Option String)
    (hlen : gaps.length = 8) :
    ∃ r, check_part1 gaps form = some r ∧
      r.total = 8 ∧
      (∀ i, i < 8 →
        ((r.details.getD i ⟨false, 0, ""⟩).correct = true ↔
          pyParseInt (form i) = some (((gaps.getD i ⟨[], 0⟩).correct : Int)))) ∧
      r.score = ((List.range 8).filter (fun i =>
        pyParseInt (form i) = some (((gaps.getD i ⟨[], 0⟩).correct : Int)))).length := by
  have hne : gaps.isEmpty = false := by
    cases gaps with
    | nil => cases hlen
    | cons g gs => rfl
  rw [check_part1, hne]
  simp only [Bool.false_eq_true, if_false]
  refine ⟨_, rfl, rfl, ?_, ?_⟩
  · intro i hi
    have hdet : ((List.range 8).map (p1DetailAt gaps form))[i]? =
        some (p1DetailAt gaps form i) := by
      rw [List.getElem?_map, List.getElem?_range hi]
      rfl
    rw [List.getD, List.get?_eq_getElem?, hdet]
    simp only [Option.getD_some, p1DetailAt, decide_eq_true_eq]
    exact parse_getD_eq_iff _ _
  · show ((List.range 8).map (p1DetailAt gaps form)).countP (fun d => d.correct) = _
    rw [List.countP_map, ← List.countP_eq_length_filter]
    refine List.countP_congr ?_
    intro i _
    simp only [Function.comp_apply, p1DetailAt, decide_eq_true_eq]
    exact parse_getD_eq_iff _ _

/-- Witness for C8 at the spec's scenario-C inputs; also checks
concretely that the score is 2 with details [true, false, true, ...]. -/
theorem c8_witness :
    c8gaps.length = 8 ∧
      (∃ r, check_part1 c8gaps c8form = some r ∧
        r.total = 8 ∧
        (∀ i, i < 8 →
          ((r.details.getD i ⟨false, 0, ""⟩).correct = true ↔
            pyParseInt (c8form i) = some (((c8gaps.getD i ⟨[], 0⟩).correct : Int)))) ∧
        r.score = ((List.range 8).filter (fun i =>
          pyParseInt (c8form i) =
            some (((c8gaps.getD i ⟨[], 0⟩).correct : Int)))).length) ∧
      (check_part1 c8gaps c8form).map (fun r => (r.score, r.details.map (·.correct))) =
        some (2, [true, false, true, false, false, false, false, false]) :=
  ⟨by decide, c8_check_part1_grading c8gaps c8form (by decide), by decide⟩

theorem check_part4_loop_counts (tasks : List (Option P4Task))
    (form : Nat → Option String) : ∀ i,
    (check_part4_loop tasks form i).1 =
        ((List.enumFrom i tasks).filter (p4ScoredPair form)).length ∧
      (check_part4_loop tasks form i).2.1 =
        ((List.enumFrom i tasks).filter (p4AttemptedPair form)).length := by
  induction tasks with
  | nil => intro i; exact ⟨rfl, rfl⟩
  | cons t? rest ih =>
    intro i
    obtain ⟨ihs, iht⟩ := ih (i + 1)
    cases t? with
    | none =>
      constructor
      · rw [List.enumFrom_cons,
          List.filter_cons_of_neg (by rw [show p4ScoredPair form
            (i, (none : Option P4Task)) = false from rfl]; exact Bool.false_ne_true)]
        exact ihs
      · rw [List.enumFrom_cons,
          List.filter_cons_of_neg (by rw [show p4AttemptedPair form
            (i, (none : Option P4Task)) = false from rfl]; exact Bool.false_ne_true)]
        exact iht
    | some t =>
      rw [List.enumFrom_cons]
      have hs : p4ScoredPair form (i, some t) =
          (pyStrip ((form i).getD "") ≠ "" &&
            answers_match (pyStrip ((form i).getD "")) (t.answer.getD "")) := rfl
      have ha : p4AttemptedPair form (i, some t) =
          (pyStrip ((form i).getD "") ≠ "" : Bool) := rfl
      constructor
      · show (if pyStrip ((form i).getD "") ≠ "" &&
            answers_match (pyStrip ((form i).getD "")) (t.answer.getD "")
          then 1 else 0) + (check_part4_loop rest form (i + 1)).1 = _
        by_cases hc : (pyStrip ((form i).getD "") ≠ "" &&
            answers_match (pyStrip ((form i).getD "")) (t.answer.getD "")) = true
        · rw [List.filter_cons_of_pos (by rw [hs]; exact hc), if_pos hc]
          rw [List.length_cons, ihs]
          omega
        · rw [List.filter_cons_of_neg (by rw [hs]; exact hc), if_neg hc]
          rw [ihs]
          omega
      · show (if pyStrip ((form i).getD "") ≠ "" then 1 else 0) +
          (check_part4_loop rest form (i + 1)).2.1 = _
        by_cases hc : (pyStrip ((form i).getD "") ≠ "" : Bool) = true
        · rw [List.filter_cons_of_pos (by rw [ha]; exact hc), if_pos (by
            simpa using hc)]
          rw [List.length_cons, iht]
          omega
        · rw [List.filter_cons_of_neg (by rw [ha]; exact hc), if_neg (by
            simpa using hc)]
          rw [iht]
          omega

/-- C7: when `check_part4` returns a result, `total` is the number of
entries whose task is a dict and whose stripped submission is non-blank
(attempted items), and `score` is the number of attempted items whose
submission matches the stored answer; blank items contribute to neither
count. -/
theorem c7_check_part4_attempted_scoring (tasks : List (Option P4Task))
    (form : Nat → Option String) (r : CheckResult4)
    (h : check_part4 tasks form = some r) :
    r.total = (tasks.enum.filter (p4AttemptedPair form)).length ∧
      r.score = (tasks.enum.filter (p4ScoredPair form)).length := by
  rw [check_part4] at h
  by_cases he : tasks.isEmpty
  · rw [if_pos he] at h
    cases h
  · rw [if_neg he] at h
    obtain ⟨hs, ht⟩ := check_part4_loop_counts tasks form 0
    injection h with h2
    rw [← h2]
    exact ⟨ht, hs⟩

set_option maxRecDepth 8000 in
/-- Witness for C7: three tasks; the first answered correctly, the second
left blank, the third answered wrong; total counts the 2 attempted items
and score the 1 match. -/
theorem c7_witness :
    check_part4 [some ⟨some "has been"⟩, some ⟨some "did not"⟩, some ⟨some "was made"⟩]
        (fun i => if i = 0 then some " has been " else if i = 2 then some "nope" else none) =
      some ⟨4, 1, 2,
        [⟨true, "has been", "has been"⟩, ⟨false, "", "did not"⟩,
          ⟨false, "nope", "was made"⟩]⟩ ∧
      ((2 : Nat) = (([some (⟨some "has been"⟩ : P4Task), some ⟨some "did not"⟩,
            some ⟨some "was made"⟩] : List (Option P4Task)).enum.filter
          (p4AttemptedPair (fun i => if i = 0 then some " has been "
            else if i = 2 then some "nope" else none))).length ∧
        (1 : Nat) = (([some (⟨some "has been"⟩ : P4Task), some ⟨some "did not"⟩,
            some ⟨some "was made"⟩] : List (Option P4Task)).enum.filter
          (p4ScoredPair (fun i => if i = 0 then some " has been "
            else if i = 2 then some "nope" else none))).length) :=
  ⟨by decide,
    c7_check_part4_attempted_scoring _ _
      ⟨4, 1, 2, [⟨true, "has been", "has been"⟩, ⟨false, "", "did not"⟩,
        ⟨false, "nope", "was made"⟩]⟩ (by decide)⟩

theorem dictSet_length_le {V : Type} (c : List (String × V)) (k : String) (v : V) :
    (dictSet c k v).length ≤ c.length + 1 := by
  unfold dictSet
  by_cases h : dictMember c k
  · rw [if_pos h, List.length_map]
    omega
  · rw [if_neg h, List.length_append]
    simp

/-- C9: the ephemeral check-result cache is bounded and single-use: an
insert never grows it beyond `CHECK_RESULT_CACHE_MAX = 20` entries; when
it is full, the oldest-inserted entry is evicted before the fresh token
is appended; and a successful read by token removes that token, so a
second read of the same token yields nothing — each stored result is
delivered at most once. -/
theorem c9_cache_bounded_single_use {V : Type} (c : List (String × V))
    (k : String) (v : V) (r : V) :
    (c.length ≤ CHECK_RESULT_CACHE_MAX →
      (cacheInsert c k v).length ≤ CHECK_RESULT_CACHE_MAX) ∧
      (c.length = CHECK_RESULT_CACHE_MAX → dictMember (c.drop 1) k = false →
        cacheInsert c k v = c.drop 1 ++ [(k, v)]) ∧
      ((cacheTake c k).1 = some r →
        dictMember (cacheTake c k).2 k = false ∧
          (cacheTake (cacheTake c k).2 k).1 = none) ∧
      CHECK_RESULT_CACHE_MAX = 20 := by
  refine ⟨?_, ?_, ?_, rfl⟩
  · intro hle
    unfold cacheInsert
    by_cases hfull : c.length ≥ CHECK_RESULT_CACHE_MAX
    · rw [if_pos hfull]
      have h1 := dictSet_length_le (c.drop 1) k v
      rw [List.length_drop] at h1
      unfold CHECK_RESULT_CACHE_MAX at *
      omega
    · rw [if_neg hfull]
      have h1 := dictSet_length_le c k v
      unfold CHECK_RESULT_CACHE_MAX at *
      omega
  · intro hfull hfresh
    unfold cacheInsert
    rw [if_pos (by omega)]
    unfold dictSet
    rw [hfresh]
    simp
  · intro hread
    have hmem : ∀ q ∈ c.filter (fun q => ¬(q.1 = k)), ¬(q.1 = k) := by
      intro q hq
      have := List.of_mem_filter hq
      simpa using this
    unfold cacheTake at hread ⊢
    cases hfind : c.find? (fun p => p.1 = k) with
    | none =>
      rw [hfind] at hread
      cases hread
    | some p =>
      rw [hfind] at hread
      have hrm : (c.filter (fun q => ¬(q.1 = k))).find? (fun p => p.1 = k) = none := by
        rw [List.find?_eq_none]
        intro x hx
        simpa using hmem x hx
      constructor
      · show dictMember (c.filter (fun q => ¬(q.1 = k))) k = false
        unfold dictMember
        rw [← Bool.not_eq_true]
        rw [List.any_eq_true]
        rintro ⟨x, hx, hxk⟩
        exact hmem x hx (by simpa using hxk)
      · rw [hrm]

/-- Witness for C9 on a two-entry cache: inserting keeps the bound, and
the token "t1" can be read exactly once. -/
theorem c9_witness :
    (([("t1", 10), ("t2", 20)] : List (String × Nat)).length ≤ CHECK_RESULT_CACHE_MAX ∧
      (cacheInsert [("t1", 10), ("t2", 20)] "t3" 30).length ≤ CHECK_RESULT_CACHE_MAX) ∧
      ((cacheTake ([("t1", 10), ("t2", 20)] : List (String × Nat)) "t1").1 = some 10 ∧
        dictMember (cacheTake ([("t1", 10), ("t2", 20)] : List (String × Nat)) "t1").2
            "t1" = false ∧
        (cacheTake (cacheTake ([("t1", 10), ("t2", 20)] :
          List (String × Nat)) "t1").2 "t1").1 = none) :=
  ⟨⟨by decide, (c9_cache_bounded_single_use [("t1", 10), ("t2", 20)] "t3" 30 30).1
      (by decide)⟩,
    by decide,
    ((c9_cache_bounded_single_use [("t1", 10), ("t2", 20)] "t1" 10 10).2.2.1
      (by decide)).1,
    ((c9_cache_bounded_single_use [("t1", 10), ("t2", 20)] "t1" 10 10).2.2.1
      (by decide)).2⟩

theorem p3Validate_unchanged {c : P3Candidate} {p : P3Payload}
    (h : p3Validate c = some p) :
    p3UnchangedCount p.stems p.answers ≤ 1 := by
  unfold p3Validate at h
  split at h
  · cases h
  · split at h
    · cases h
    · split at h
      · cases h
      · split at h
        · cases h
        · split at h
          · cases h
          · injection h with h2
            rw [← h2]
            exact Nat.le_of_not_lt (by assumption)

theorem p3Attempts_spec (responses : List (Option P3Candidate))
    (store : List P3Payload) :
    (∀ p, (p3Attempts responses store).1 = some p →
      p3UnchangedCount p.stems p.answers ≤ 1 ∧
        (p3Attempts responses store).2 = store ++ [p]) ∧
      ((p3Attempts responses store).1 = none →
        (p3Attempts responses store).2 = store) := by
  induction responses with
  | nil => exact ⟨fun p hp => (nomatch hp), fun _ => rfl⟩
  | cons r rest ih =>
    cases r with
    | none => exact ih
    | some c =>
      rw [show p3Attempts (some c :: rest) store =
        (match p3Validate c with
          | none => p3Attempts rest store
          | some payload => (some payload, store ++ [payload])) from rfl]
      cases hv : p3Validate c with
      | none => exact ih
      | some payload =>
        refine ⟨?_, ?_⟩
        · intro p hp
          injection hp with h2
          rw [← h2]
          exact ⟨p3Validate_unchanged hv, rfl⟩
        · intro hp
          cases hp

/-- C5: a Part 3 payload returned (and persisted) by the synthesizer has
at most 1 of its 8 answers identical, case-insensitively, to its stem; a
violating candidate is never persisted (the store gains exactly the one
accepted payload, or nothing when the call fails); and everything is
decided within the first 3 provider attempts. -/
theorem c5_word_formation_triviality_bound (clientConfigured : Bool)
    (responses : List (Option P3Candidate)) (store : List P3Payload) :
    (∀ p, (generate_part3_with_openai clientConfigured responses store).1 = some p →
      p3UnchangedCount p.stems p.answers ≤ 1 ∧
        (generate_part3_with_openai clientConfigured responses store).2 =
          store ++ [p]) ∧
      ((generate_part3_with_openai clientConfigured responses store).1 = none →
        (generate_part3_with_openai clientConfigured responses store).2 = store) ∧
      generate_part3_with_openai clientConfigured responses store =
        generate_part3_with_openai clientConfigured (responses.take 3) store := by
  unfold generate_part3_with_openai
  cases clientConfigured with
  | false =>
    rw [if_pos (by simp)]
    exact ⟨fun p hp => (nomatch hp), fun _ => rfl, rfl⟩
  | true =>
    rw [if_neg (by simp)]
    rw [List.take_take, Nat.min_self]
    obtain ⟨h1, h2⟩ := p3Attempts_spec (responses.take 3) store
    exact ⟨h1, h2, rfl⟩

set_option maxRecDepth 40000 in
/-- Witness for C5: the all-unchanged candidate consumes the first
attempt and is never persisted; the second attempt's candidate is
persisted and satisfies the bound. -/
theorem c5_witness :
    (generate_part3_with_openai true [some c5bad, some c5good] []).1 =
        some ⟨pyStrip c5good.text, c5good.stems.map (fun s => pyToUpper (pyStrip s)),
          c5good.answers.map pyStrip⟩ ∧
      p3UnchangedCount
          (⟨pyStrip c5good.text, c5good.stems.map (fun s => pyToUpper (pyStrip s)),
            c5good.answers.map pyStrip⟩ : P3Payload).stems
          (⟨pyStrip c5good.text, c5good.stems.map (fun s => pyToUpper (pyStrip s)),
            c5good.answers.map pyStrip⟩ : P3Payload).answers ≤ 1 ∧
      (generate_part3_with_openai true [some c5bad, some c5good] []).2 =
        ([] : List P3Payload) ++
          [⟨pyStrip c5good.text, c5good.stems.map (fun s => pyToUpper (pyStrip s)),
            c5good.answers.map pyStrip⟩] :=
  ⟨by decide,
    ((c5_word_formation_triviality_bound true [some c5bad, some c5good] []).1 _
      (by decide)).1,
    ((c5_word_formation_triviality_bound true [some c5bad, some c5good] []).1 _
      (by decide)).2⟩

theorem same_as_false_non_trivial {s1 s2 ans : String}
    (hfilter : part4_sentence2_same_as_sentence1 s1 s2 ans = false)
    (hs1 : ¬(s1 = "")) (hs2 : ¬(s2 = "")) (hmk : containsSub s2 "_____" = true) :
    norm (pyStrip (pyReplace s2 "_____" (pyStrip ans))) ≠ norm s1 := by
  unfold part4_sentence2_same_as_sentence1 at hfilter
  rw [if_neg (by simp [hs1, hs2, hmk])] at hfilter
  intro hc
  rw [hc] at hfilter
  simp at hfilter

theorem p4ProcessItem_spec (db : UoeDB) (result : List UoeRow)
    (topics : List String) (it : P4Candidate) :
    ∃ Δ : List UoeRow,
      (p4ProcessItem db result topics it).1.rows = db.rows ++ Δ ∧
        (p4ProcessItem db result topics it).2.1 = result ++ Δ ∧
        ∀ r ∈ Δ, p4NonTrivial r := by
  unfold p4ProcessItem
  by_cases hacc : p4Accepts db result topics it = true
  · rw [if_pos hacc]
    refine ⟨[p4NewRow db it], rfl, rfl, ?_⟩
    intro r hr
    rw [List.mem_singleton] at hr
    subst hr
    unfold p4Accepts at hacc
    simp only [Bool.and_eq_true, Bool.not_eq_eq_eq_not, Bool.not_true,
      Bool.or_eq_false_iff, decide_eq_false_iff_not] at hacc
    intro hmk
    exact same_as_false_non_trivial hacc.1.1.1.2 hacc.1.1.1.1.1.1.1.1.1
      hacc.1.1.1.1.1.1.1.2 hmk
  · rw [if_neg hacc]
    exact ⟨[], by simp, by simp, fun r hr => absurd hr (List.not_mem_nil r)⟩

theorem p4ProcessList_spec : ∀ (arr : List P4Candidate) (db : UoeDB)
    (res : List UoeRow) (tops : List String),
    ∃ Δ : List UoeRow,
      (p4ProcessList arr db res tops).1.rows = db.rows ++ Δ ∧
        (p4ProcessList arr db res tops).2.1 = res ++ Δ ∧
        ∀ r ∈ Δ, p4NonTrivial r := by
  intro arr
  induction arr with
  | nil => exact fun db res tops => ⟨[], by simp [p4ProcessList], by simp [p4ProcessList],
      fun r hr => absurd hr (List.not_mem_nil r)⟩
  | cons it rest ih =>
    intro db res tops
    obtain ⟨d1, h1rows, h1res, h1p⟩ := p4ProcessItem_spec db res tops it
    obtain ⟨d2, h2rows, h2res, h2p⟩ := ih (p4ProcessItem db res tops it).1
      (p4ProcessItem db res tops it).2.1 (p4ProcessItem db res tops it).2.2
    refine ⟨d1 ++ d2, ?_, ?_, ?_⟩
    · rw [show p4ProcessList (it :: rest) db res tops =
        p4ProcessList rest (p4ProcessItem db res tops it).1
          (p4ProcessItem db res tops it).2.1
          (p4ProcessItem db res tops it).2.2 from rfl]
      rw [h2rows, h1rows, List.append_assoc]
    · rw [show p4ProcessList (it :: rest) db res tops =
        p4ProcessList rest (p4ProcessItem db res tops it).1
          (p4ProcessItem db res tops it).2.1
          (p4ProcessItem db res tops it).2.2 from rfl]
      rw [h2res, h1res, List.append_assoc]
    · intro r hr
      rcases List.mem_append.mp hr with h | h
      · exact h1p r h
      · exact h2p r h

theorem p4Attempts_spec : ∀ (responses : List P4Resp) (count : Nat)
    (db : UoeDB) (res : List UoeRow) (tops : List String),
    ∃ Δ : List UoeRow,
      (p4Attempts responses count db res tops).2.rows = db.rows ++ Δ ∧
        (p4Attempts responses count db res tops).1 = res ++ Δ ∧
        ∀ r ∈ Δ, p4NonTrivial r := by
  intro responses
  induction responses with
  | nil => exact fun count db res tops => ⟨[], by simp [p4Attempts], by simp [p4Attempts],
      fun r hr => absurd hr (List.not_mem_nil r)⟩
  | cons r rest ih =>
    intro count db res tops
    simp only [p4Attempts]
    by_cases hneed : count - res.length = 0
    · rw [if_pos hneed]
      exact ⟨[], by simp, by simp, fun x hx => absurd hx (List.not_mem_nil x)⟩
    · rw [if_neg hneed]
      cases r with
      | failure =>
        exact ⟨[], by simp, by simp, fun x hx => absurd hx (List.not_mem_nil x)⟩
      | notList => exact ih count db res tops
      | items arr =>
        obtain ⟨d1, h1rows, h1res, h1p⟩ :=
          p4ProcessList_spec (arr.take (count - res.length)) db res tops
        obtain ⟨d2, h2rows, h2res, h2p⟩ := ih count
          (p4ProcessList (arr.take (count - res.length)) db res tops).1
          (p4ProcessList (arr.take (count - res.length)) db res tops).2.1
          (p4ProcessList (arr.take (count - res.length)) db res tops).2.2
        refine ⟨d1 ++ d2, ?_, ?_, ?_⟩
        · rw [h2rows, h1rows, List.append_assoc]
        · rw [h2res, h1res, List.append_assoc]
        · intro x hx
          rcases List.mem_append.mp hx with h | h
          · exact h1p x h
          · exact h2p x h

/-- C6 (counterexample): the claim, read over all persisted items, is
false: the batch loop only applies the sentence2-equals-sentence1 filter
when the gap marker `_____` is present, so a candidate whose sentence2
has no marker and simply repeats sentence1 is persisted, and substituting
the stored answer (a no-op without the marker) yields exactly sentence1. -/
theorem c6_counterexample :
    (generate_tasks_with_openai true 6
        [P4Resp.items [⟨"He is not small.", "IS", "He is not small.",
          "is not small", ""⟩]] ⟨[], 1⟩).1 =
      [⟨1, "He is not small.", "IS", "He is not small.", "is not small", none⟩] ∧
      norm (pyStrip (pyReplace "He is not small." "_____" (pyStrip "is not small"))) =
        norm "He is not small." :=
  ⟨by decide, by decide⟩

/-- C6 (amended): the synthesizer's inserted rows are exactly the
returned batch, and for every persisted item whose sentence2 contains
the gap marker `_____`, substituting the stored answer for the marker
does NOT yield a string normalize-equal to sentence1. (Items whose
sentence2 lacks the marker bypass this filter, per the counterexample.) -/
theorem c6_sentence_transformation_non_triviality
    (clientConfigured : Bool) (count : Nat) (responses : List P4Resp) (db : UoeDB) :
    (generate_tasks_with_openai clientConfigured count responses db).2.rows =
        db.rows ++ (generate_tasks_with_openai clientConfigured count responses db).1 ∧
      ∀ r ∈ (generate_tasks_with_openai clientConfigured count responses db).1,
        containsSub r.sentence2 "_____" = true →
          norm (pyStrip (pyReplace r.sentence2 "_____" (pyStrip r.answer))) ≠
            norm r.sentence1 := by
  unfold generate_tasks_with_openai
  cases clientConfigured with
  | false =>
    rw [if_pos (by simp)]
    exact ⟨by simp, fun r hr => absurd hr (List.not_mem_nil r)⟩
  | true =>
    rw [if_neg (by simp)]
    obtain ⟨Δ, hrows, hres, hp⟩ := p4Attempts_spec (responses.take 2) count db [] []
    rw [hrows, hres]
    refine ⟨by simp, ?_⟩
    intro r hr
    exact hp r (by simpa using hr)

/-- Witness for C6's amended theorem at a concrete run: a proper gapped
candidate is accepted, and the persisted row (with the marker present)
reconstructs to something different from sentence1. -/
theorem c6_witness :
    (generate_tasks_with_openai true 6
        [P4Resp.items [⟨"They built the bridge in 1901.", "WAS",
          "The bridge _____ in 1901.", "was built by them", ""⟩]] ⟨[], 1⟩).1 =
      [⟨1, "They built the bridge in 1901.", "WAS", "The bridge _____ in 1901.",
        "was built by them", none⟩] ∧
      ((generate_tasks_with_openai true 6
        [P4Resp.items [⟨"They built the bridge in 1901.", "WAS",
          "The bridge _____ in 1901.", "was built by them", ""⟩]] ⟨[], 1⟩).2.rows =
        ([] : List UoeRow) ++ (generate_tasks_with_openai true 6
          [P4Resp.items [⟨"They built the bridge in 1901.", "WAS",
            "The bridge _____ in 1901.", "was built by them", ""⟩]] ⟨[], 1⟩).1 ∧
        ∀ r ∈ (generate_tasks_with_openai true 6
          [P4Resp.items [⟨"They built the bridge in 1901.", "WAS",
            "The bridge _____ in 1901.", "was built by them", ""⟩]] ⟨[], 1⟩).1,
          containsSub r.sentence2 "_____" = true →
            norm (pyStrip (pyReplace r.sentence2 "_____" (pyStrip r.answer))) ≠
              norm r.sentence1) :=
  ⟨by decide,
    c6_sentence_transformation_non_triviality true 6
      [P4Resp.items [⟨"They built the bridge in 1901.", "WAS",
        "The bridge _____ in 1901.", "was built by them", ""⟩]] ⟨[], 1⟩⟩

end FCE
